import Mathlib

/-!
Verification of the meal-planner core (catalog query, plan assembler,
shopping-list aggregator) against its natural-language specification.
The definitions below are a shallow embedding of `src/app.py`:
`get_recipes_by_filters`, `generate_meal_plan` and
`calculate_missing_ingredients`, together with the relational tables they
read (`recipes`, `ingredients`, `recipe_ingredients`, `recipe_dietary_tags`,
`recipe_races`, `substitutions`).
-/

namespace Meal

/-- Row of the `recipes` table.  The four nutrition numbers are inert
payload for every property below; the REAL columns are carried as `Int`. -/
structure Recipe where
  id : Nat
  title : String
  meal_type : String
  instructions : String
  calories : Int
  protein : Int
  carbs : Int
  fat : Int
deriving DecidableEq

/-- Row of the `ingredients` table. -/
structure Ingredient where
  id : Nat
  name : String
  category : String
deriving DecidableEq

/-- Row of the `recipe_ingredients` junction table. -/
structure RecipeIngredient where
  recipe_id : Nat
  ingredient_id : Nat
deriving DecidableEq

/-- Row of the `recipe_dietary_tags` table. -/
structure RecipeDietaryTag where
  recipe_id : Nat
  tag : String
deriving DecidableEq

/-- Row of the `recipe_races` table. -/
structure RecipeRace where
  recipe_id : Nat
  race : String
deriving DecidableEq

/-- Row of the `substitutions` table: `substitute_ingredient_id` is a
registered substitute for `ingredient_id`. -/
structure Substitution where
  ingredient_id : Nat
  substitute_ingredient_id : Nat
deriving DecidableEq

/-- The read-only database the three core functions query. -/
structure Catalog where
  recipes : List Recipe
  ingredients : List Ingredient
  recipe_ingredients : List RecipeIngredient
  recipe_dietary_tags : List RecipeDietaryTag
  recipe_races : List RecipeRace
  substitutions : List Substitution

/-- Substring test on character lists: `containsSub l pat` is true when
`pat` occurs contiguously inside `l`.  This is the meaning of the SQL
pattern `LIKE provided-pattern` once the pattern is wrapped in `%...%`,
and of the Python operator `in` on strings. -/
def containsSub : List Char → List Char → Bool
  | [], pat => pat.isEmpty
  | a :: t, pat => pat.isPrefixOf (a :: t) || containsSub t pat

/-- String-level substring test: `strContains s pat` holds when `pat` is a
contiguous substring of `s` (the empty pattern matches everything). -/
def strContains (s pat : String) : Bool :=
  containsSub s.data pat.data

/-- Strip leading and trailing whitespace from a character list; the
meaning of Python `str.strip()` and of the stripping the query applies to
each free-text term. -/
def trimChars (l : List Char) : List Char :=
  ((l.dropWhile Char.isWhitespace).reverse.dropWhile Char.isWhitespace).reverse

/-- String-level whitespace stripping. -/
def strTrim (s : String) : String :=
  { data := trimChars s.data }

/-- Character-wise lowercasing; the meaning of SQL `LOWER` and of Python
`str.lower()` on the ASCII names this catalog holds. -/
def strLower (s : String) : String :=
  { data := s.data.map Char.toLower }

/-- Lexicographic code-point comparison of character lists; the order
Python `sorted` and the SQL `ORDER BY` of the batched ingredient query use
on the strings of this catalog. -/
def lexLe : List Char → List Char → Bool
  | [], _ => true
  | _ :: _, [] => false
  | a :: as, b :: bs => if a = b then lexLe as bs else decide (a < b)

/-- Lexicographic comparison of strings. -/
def strLe (s t : String) : Bool :=
  lexLe s.data t.data

/-- Split a character list at commas, accumulating the current piece in
reverse; the meaning of Python `split(",")`. -/
def splitComma : List Char → List Char → List (List Char)
  | [], cur => [cur.reverse]
  | c :: rest, cur =>
    if c = ',' then cur.reverse :: splitComma rest []
    else splitComma rest (c :: cur)

/-- Ids produced by the substitution subquery of `get_recipes_by_filters`
for one (already trimmed and lowercased) pattern: the
`substitute_ingredient_id` of every substitution row whose source
ingredient has a name containing the pattern case-insensitively. -/
def substMatchIds (c : Catalog) (pat : String) : List Nat :=
  (c.substitutions.filter (fun s =>
      c.ingredients.any (fun i2 =>
        s.ingredient_id == i2.id && strContains (strLower i2.name) pat))).map
    (fun s => s.substitute_ingredient_id)

/-- One ingredient row satisfies the per-term disjunct of the SQL `EXISTS`
subquery: its name contains the trimmed term case-insensitively, or its id
is a registered substitute target for some ingredient whose name contains
the trimmed term case-insensitively. -/
def ingMatchesTerm (c : Catalog) (term : String) (i : Ingredient) : Bool :=
  let pat := strLower (strTrim term)
  strContains (strLower i.name) pat || (substMatchIds c pat).contains i.id

/-- The `EXISTS` subquery of `get_recipes_by_filters` for one free-text
ingredient term: some ingredient row of the recipe matches the term. -/
def recipeMatchesTerm (c : Catalog) (r : Recipe) (term : String) : Bool :=
  c.recipe_ingredients.any (fun ri =>
    ri.recipe_id == r.id &&
    c.ingredients.any (fun i => i.id == ri.ingredient_id && ingMatchesTerm c term i))

/-- The WHERE clause of `get_recipes_by_filters` evaluated for one recipe
row.  Python truthiness of the arguments is mirrored: an empty string for
`race` or `meal_type` and an empty list for `dietary_prefs` or
`ingredients` add no condition.  Note that the per-term ingredient
conditions are joined with OR in the source (line 160 of `src/app.py`). -/
def recipePassesFilters (c : Catalog) (ingredients dietary_prefs : List String)
    (race meal_type : Option String) (r : Recipe) : Bool :=
  (match race with
   | none => true
   | some rc => rc.data.isEmpty ||
       c.recipe_races.any (fun rr => rr.recipe_id == r.id && rr.race == rc)) &&
  (dietary_prefs.all (fun p =>
      c.recipe_dietary_tags.any (fun t => t.recipe_id == r.id && t.tag == p))) &&
  (match meal_type with
   | none => true
   | some mt => mt.data.isEmpty || r.meal_type == mt) &&
  (ingredients.isEmpty || ingredients.any (fun t => recipeMatchesTerm c r t))

instance recipeTitleLeDec :
    DecidableRel (fun a b : Recipe => strLe a.title b.title = true) :=
  fun a b => inferInstanceAs (Decidable (strLe a.title b.title = true))

/-- Embedding of `get_recipes_by_filters` from `src/app.py`: filter the
`recipes` table by the WHERE clause; `ORDER BY r.title` is applied unless
`skip_order` is set (the assembler always sets it). -/
def get_recipes_by_filters (c : Catalog) (ingredients dietary_prefs : List String)
    (race meal_type : Option String) (skip_order : Bool) : List Recipe :=
  let res := c.recipes.filter (recipePassesFilters c ingredients dietary_prefs race meal_type)
  if skip_order then res
  else List.insertionSort (fun a b => strLe a.title b.title = true) res

/-- The route-level ingredient parsing of `generate_plan` in `src/app.py`:
split the form field on commas, strip each piece, keep the non-empty ones
(an all-whitespace field yields the empty list). -/
def parseIngredientsInput (s : String) : List String :=
  if (strTrim s).data.isEmpty then []
  else ((splitComma s.data []).map (fun l => strTrim { data := l })).filter
    (fun t => !t.data.isEmpty)

/-- The fixed per-day meal categories of `generate_meal_plan`, in source
order. -/
def meal_types : List String :=
  ["breakfast", "lunch", "dinner", "appetizer", "dessert", "drink"]

/-- Placeholder recipe used only to give `List.getD` a default; every call
site first checks the list is non-empty. -/
def defaultRecipe : Recipe :=
  { id := 0, title := "", meal_type := "", instructions := "",
    calories := 0, protein := 0, carbs := 0, fat := 0 }

/-- Model of `random.choice` over a non-empty list: the random stream
`rnd` is consulted at the current draw counter and reduced modulo the list
length, so every element is a possible outcome. -/
def chooseFrom (rnd : Nat → Nat) (ctr : Nat) (l : List Recipe) : Recipe :=
  l.getD (rnd ctr % l.length) defaultRecipe

/-- The per-slot selection of `generate_meal_plan` (lines 256 to 283 of
`src/app.py`): if the primary pool is non-empty, choose among its members
not yet used; when all are used, fall back to the unfiltered pool minus
used; when the primary pool is empty, go directly to the fallback pool
minus used; otherwise leave the slot absent.  Returns the optional pick
and the advanced draw counter. -/
def pickSlot (rnd : Nat → Nat) (recipes fallback : List Recipe)
    (used : List Nat) (ctr : Nat) : Option Recipe × Nat :=
  if recipes.isEmpty then
    if (fallback.filter (fun r => !(used.contains r.id))).isEmpty then (none, ctr)
    else (some (chooseFrom rnd ctr (fallback.filter (fun r => !(used.contains r.id)))),
          ctr + 1)
  else
    if (recipes.filter (fun r => !(used.contains r.id))).isEmpty then
      if (fallback.filter (fun r => !(used.contains r.id))).isEmpty then (none, ctr)
      else (some (chooseFrom rnd ctr (fallback.filter (fun r => !(used.contains r.id)))),
            ctr + 1)
    else (some (chooseFrom rnd ctr (recipes.filter (fun r => !(used.contains r.id)))),
          ctr + 1)

/-- The inner loop of `generate_meal_plan` over the six meal categories of
one day: build the assoc list of filled slots (a slot with no pick
contributes no key, exactly as the Python dict gains no entry), threading
the used-id set and the draw counter. -/
def buildSlots (rnd : Nat → Nat) (rbt fbt : String → List Recipe) :
    List String → List Nat → Nat → List (String × Recipe) × List Nat × Nat
  | [], used, ctr => ([], used, ctr)
  | mt :: rest, used, ctr =>
    match pickSlot rnd (rbt mt) (fbt mt) used ctr with
    | (none, ctr2) => buildSlots rnd rbt fbt rest used ctr2
    | (some r, ctr2) =>
      let out := buildSlots rnd rbt fbt rest (r.id :: used) ctr2
      ((mt, r) :: out.1, out.2)

/-- The outer loop of `generate_meal_plan` over days `day`, `day+1`, ...
for `remaining` days, producing the ordered assoc list from day label to
the slot assoc list of that day. -/
def buildDays (rnd : Nat → Nat) (rbt fbt : String → List Recipe) :
    Nat → Nat → List Nat → Nat → List (String × List (String × Recipe))
  | _, 0, _, _ => []
  | day, remaining + 1, used, ctr =>
    let out := buildSlots rnd rbt fbt meal_types used ctr
    ("Day " ++ toString day, out.1) ::
      buildDays rnd rbt fbt (day + 1) remaining out.2.1 out.2.2

/-- Embedding of `generate_meal_plan` from `src/app.py`: pre-fetch the
primary pool (all caller filters plus the category) and the fallback pool
(category only) once per category, then fill the day-by-day slots with a
single used-id set shared across the whole plan.  `rnd` models the stream
of draws `random.choice` consumes. -/
def generate_meal_plan (c : Catalog) (days : Nat)
    (ingredients dietary_prefs : List String) (race : Option String)
    (rnd : Nat → Nat) : List (String × List (String × Recipe)) :=
  buildDays rnd
    (fun mt => get_recipes_by_filters c ingredients dietary_prefs race (some mt) true)
    (fun mt => get_recipes_by_filters c [] [] none (some mt) true)
    1 days [] 0

/-- The recipe-id collection loop of `calculate_missing_ingredients`: every
recipe found in any slot of the plan, skipping entries whose id is falsy
in Python (id 0). -/
def plan_recipe_ids (plan : List (String × List (String × Recipe))) : List Nat :=
  plan.flatMap (fun d => (d.2.filter (fun s => s.2.id != 0)).map (fun s => s.2.id))

/-- Ordering used to model `ORDER BY i.category, i.name` on the fetched
(name, category) rows. -/
def rowLe (a b : String × String) : Prop :=
  (a.2 = b.2 ∧ strLe a.1 b.1 = true) ∨ (a.2 ≠ b.2 ∧ strLe a.2 b.2 = true)

instance rowLeDec : DecidableRel rowLe :=
  fun a b => inferInstanceAs
    (Decidable ((a.2 = b.2 ∧ strLe a.1 b.1 = true) ∨ (a.2 ≠ b.2 ∧ strLe a.2 b.2 = true)))

/-- The batched ingredient query of `calculate_missing_ingredients`: all
(name, category) pairs of ingredient rows joined to a recipe id of the
plan, ordered by category then name.  One row per join match, so an
ingredient shared by several plan recipes appears several times. -/
def fetchPlanIngredients (c : Catalog) (recipe_ids : List Nat) :
    List (String × String) :=
  List.insertionSort rowLe
    ((c.recipe_ingredients.filter (fun ri => recipe_ids.contains ri.recipe_id)).flatMap
      (fun ri => (c.ingredients.filter (fun i => i.id == ri.ingredient_id)).map
        (fun i => (i.name, i.category))))

/-- The held-check of `calculate_missing_ingredients`: the user pantry
entries are trimmed and lowercased, and the ingredient counts as held when
some normalized entry is a substring of the lowercased ingredient name or
the lowercased ingredient name is a substring of the entry. -/
def heldByPantry (user_ingredients : List String) (ing_name : String) : Bool :=
  (user_ingredients.map (fun s => strLower (strTrim s))).any
    (fun u => strContains (strLower ing_name) u || strContains u (strLower ing_name))

/-- Insertion into the category-keyed accumulator, mirroring
`needed_ingredients[category].add(ing_name)` on Python dict-of-set: the
category keeps its first-insertion position and the name set is modelled
as a duplicate-free list. -/
def addNeeded (acc : List (String × List String)) (category name : String) :
    List (String × List String) :=
  match acc with
  | [] => [(category, [name])]
  | (cat, names) :: rest =>
    if cat = category then
      (cat, if names.contains name then names else names ++ [name]) :: rest
    else (cat, names) :: addNeeded rest category name

/-- Model of Python `sorted` on a list of strings. -/
def sortStrings (l : List String) : List String :=
  List.insertionSort (fun a b : String => strLe a b = true) l

/-- Embedding of `calculate_missing_ingredients` from `src/app.py`:
collect the plan recipe ids (empty plan short-circuits to the empty
mapping), fetch all their ingredient rows in one batch, drop every row
held by the pantry, accumulate the rest per category, and sort each
category list. -/
def calculate_missing_ingredients (c : Catalog)
    (plan : List (String × List (String × Recipe)))
    (user_ingredients : List String) : List (String × List String) :=
  let recipe_ids := plan_recipe_ids plan
  if recipe_ids.isEmpty then []
  else
    let rows := fetchPlanIngredients c recipe_ids
    let needed := rows.foldl (fun acc row =>
      if heldByPantry user_ingredients row.1 then acc
      else addNeeded acc row.2 row.1) []
    needed.map (fun p => (p.1, sortStrings p.2))

/-- Lookup of the slot for a given day label and meal category in a plan;
`none` both when the day is missing and when the slot is absent. -/
def planSlot (plan : List (String × List (String × Recipe)))
    (day mt : String) : Option Recipe :=
  match plan.find? (fun d => d.1 == day) with
  | none => none
  | some d => (d.2.find? (fun s => s.1 == mt)).map Prod.snd

/-- All filled slots of a plan, in day order then category order. -/
def planSlots (plan : List (String × List (String × Recipe))) :
    List (String × Recipe) :=
  plan.flatMap Prod.snd

/-- Recipe ids of all filled slots of a plan. -/
def planIds (plan : List (String × List (String × Recipe))) : List Nat :=
  (planSlots plan).map (fun s => s.2.id)

/-- Recipe ids of the filled slots of one meal category, in day order. -/
def categoryIds (plan : List (String × List (String × Recipe)))
    (mt : String) : List Nat :=
  (((planSlots plan).filter (fun s => s.1 == mt)).map Prod.snd).map Recipe.id

/-- Recipe literal with the given id, title and meal category; all other
columns are neutral payload. -/
def mkRecipe (i : Nat) (t mt : String) : Recipe :=
  { id := i, title := t, meal_type := mt, instructions := "",
    calories := 0, protein := 0, carbs := 0, fat := 0 }

/-- Catalog with a single breakfast recipe whose only ingredient is
apple; used to exercise the ingredient-term filter. -/
def ctApple : Catalog :=
  { recipes := [mkRecipe 1 "Apple Bowl" "breakfast"]
    ingredients := [{ id := 1, name := "Apple", category := "produce" }]
    recipe_ingredients := [{ recipe_id := 1, ingredient_id := 1 }]
    recipe_dietary_tags := []
    recipe_races := []
    substitutions := [] }

/-- The apple catalog extended with a second recipe that has no
ingredient rows at all. -/
def ctApplePlain : Catalog :=
  { ctApple with
    recipes := [mkRecipe 1 "Apple Bowl" "breakfast", mkRecipe 2 "Plain Toast" "breakfast"] }

/-- Catalog holding exactly three breakfast recipes (ids 1, 2, 3) and
nothing else, the scenario of the plan-assembler claims. -/
def ctThree : Catalog :=
  { recipes := [mkRecipe 1 "Pancakes" "breakfast", mkRecipe 2 "Omelette" "breakfast",
                mkRecipe 3 "Porridge" "breakfast"]
    ingredients := []
    recipe_ingredients := []
    recipe_dietary_tags := []
    recipe_races := []
    substitutions := [] }

/-- First breakfast recipe of `ctThree`. -/
def rPan : Recipe := mkRecipe 1 "Pancakes" "breakfast"

/-- Second breakfast recipe of `ctThree`. -/
def rOme : Recipe := mkRecipe 2 "Omelette" "breakfast"

/-- Third breakfast recipe of `ctThree`. -/
def rPor : Recipe := mkRecipe 3 "Porridge" "breakfast"

/-- The candidate pools `generate_meal_plan ctThree _ [] [] none` builds
per category; with no caller filters the primary and fallback pools are
the same query. -/
def F3 : String → List Recipe :=
  fun mt => get_recipes_by_filters ctThree [] [] none (some mt) true

/-- The empty catalog. -/
def ctEmpty : Catalog :=
  { recipes := [], ingredients := [], recipe_ingredients := [],
    recipe_dietary_tags := [], recipe_races := [], substitutions := [] }

/-- Catalog where shrimp (ingredient 2) is a registered substitute for
salmon (ingredient 1), and recipe 10 contains shrimp but not salmon. -/
def ctSub : Catalog :=
  { recipes := [mkRecipe 10 "Shrimp Skillet" "dinner"]
    ingredients := [{ id := 1, name := "Salmon", category := "protein" },
                    { id := 2, name := "Shrimp", category := "protein" }]
    recipe_ingredients := [{ recipe_id := 10, ingredient_id := 2 }]
    recipe_dietary_tags := []
    recipe_races := []
    substitutions := [{ ingredient_id := 1, substitute_ingredient_id := 2 }]
  }

/-- Catalog with one dinner recipe needing rice, ginger and broth, the
shopping-list scenario of the specification. -/
def ctRice : Catalog :=
  { recipes := [mkRecipe 1 "Stir Fry" "dinner"]
    ingredients := [{ id := 1, name := "Rice", category := "grains" },
                    { id := 2, name := "Ginger", category := "produce" },
                    { id := 3, name := "Broth", category := "pantry" }]
    recipe_ingredients := [{ recipe_id := 1, ingredient_id := 1 },
                           { recipe_id := 1, ingredient_id := 2 },
                           { recipe_id := 1, ingredient_id := 3 }]
    recipe_dietary_tags := []
    recipe_races := []
    substitutions := [] }

/-- One-day plan whose single filled slot is the stir-fry recipe of
`ctRice`. -/
def planRice : List (String × List (String × Recipe)) :=
  [("Day 1", [("dinner", mkRecipe 1 "Stir Fry" "dinner")])]

/-! ### Lemmas about the plan assembler -/

theorem chooseFrom_mem (rnd : Nat → Nat) (ctr : Nat) {l : List Recipe}
    (h : l ≠ []) : chooseFrom rnd ctr l ∈ l := by
  have hlt : rnd ctr % l.length < l.length :=
    Nat.mod_lt _ (List.length_pos.mpr h)
  rw [chooseFrom, List.getD_eq_getElem l defaultRecipe hlt]
  exact List.getElem_mem hlt

theorem chooseFrom_singleton (rnd : Nat → Nat) (ctr : Nat) (x : Recipe) :
    chooseFrom rnd ctr [x] = x := by
  simp [chooseFrom, Nat.mod_one]

/-- A recipe returned by the per-slot selection was not yet used and comes
from the primary or the fallback pool. -/
theorem pickSlot_some {rnd : Nat → Nat} {recipes fallback : List Recipe}
    {used : List Nat} {ctr ctr2 : Nat} {r : Recipe}
    (h : pickSlot rnd recipes fallback used ctr = (some r, ctr2)) :
    r.id ∉ used ∧ (r ∈ recipes ∨ r ∈ fallback) := by
  have key : ∀ l : List Recipe,
      ¬ (l.filter (fun x => !(used.contains x.id))).isEmpty = true →
      chooseFrom rnd ctr (l.filter (fun x => !(used.contains x.id))) ∈ l ∧
      (chooseFrom rnd ctr (l.filter (fun x => !(used.contains x.id)))).id ∉ used := by
    intro l hne
    have hm := chooseFrom_mem rnd ctr
      (l := l.filter (fun x => !(used.contains x.id))) (by simpa using hne)
    rcases List.mem_filter.mp hm with ⟨h1, h2⟩
    exact ⟨h1, by simpa using h2⟩
  unfold pickSlot at h
  by_cases hre : recipes.isEmpty = true
  · rw [if_pos hre] at h
    by_cases hf : (fallback.filter (fun x => !(used.contains x.id))).isEmpty = true
    · rw [if_pos hf] at h; simp at h
    · rw [if_neg hf] at h
      simp only [Prod.mk.injEq, Option.some.injEq] at h
      obtain ⟨h1, -⟩ := h
      subst h1
      exact ⟨(key fallback hf).2, Or.inr (key fallback hf).1⟩
  · rw [if_neg hre] at h
    by_cases hp : (recipes.filter (fun x => !(used.contains x.id))).isEmpty = true
    · rw [if_pos hp] at h
      by_cases hf : (fallback.filter (fun x => !(used.contains x.id))).isEmpty = true
      · rw [if_pos hf] at h; simp at h
      · rw [if_neg hf] at h
        simp only [Prod.mk.injEq, Option.some.injEq] at h
        obtain ⟨h1, -⟩ := h
        subst h1
        exact ⟨(key fallback hf).2, Or.inr (key fallback hf).1⟩
    · rw [if_neg hp] at h
      simp only [Prod.mk.injEq, Option.some.injEq] at h
      obtain ⟨h1, -⟩ := h
      subst h1
      exact ⟨(key recipes hp).2, Or.inl (key recipes hp).1⟩

/-- If both pools minus the used set are empty, the slot selection
returns nothing and consumes no draw. -/
theorem pickSlot_none {rnd : Nat → Nat} {recipes fallback : List Recipe}
    {used : List Nat} (ctr : Nat)
    (h1 : recipes.filter (fun r => !(used.contains r.id)) = [])
    (h2 : fallback.filter (fun r => !(used.contains r.id)) = []) :
    pickSlot rnd recipes fallback used ctr = (none, ctr) := by
  unfold pickSlot
  by_cases hre : recipes.isEmpty = true
  · rw [if_pos hre, if_pos (by rw [h2]; rfl)]
  · rw [if_neg hre, if_pos (by rw [h1]; rfl), if_pos (by rw [h2]; rfl)]

/-- Combined invariant of the per-day slot loop: the returned used set
holds exactly the ids of the filled slots together with the initial used
set; every filled slot is fresh with respect to the initial used set and
drawn from the primary or fallback pool of its category; the filled ids are
distinct; and the slot keys form a subsequence of the visited
categories. -/
theorem buildSlots_spec (rnd : Nat → Nat) (rbt fbt : String → List Recipe) :
    ∀ (mts : List String) (used : List Nat) (ctr : Nat),
      (∀ x, x ∈ (buildSlots rnd rbt fbt mts used ctr).2.1 ↔
        (∃ s ∈ (buildSlots rnd rbt fbt mts used ctr).1, s.2.id = x) ∨ x ∈ used) ∧
      (∀ s ∈ (buildSlots rnd rbt fbt mts used ctr).1,
        s.2.id ∉ used ∧ (s.2 ∈ rbt s.1 ∨ s.2 ∈ fbt s.1)) ∧
      ((buildSlots rnd rbt fbt mts used ctr).1.map (fun s => s.2.id)).Nodup ∧
      ((buildSlots rnd rbt fbt mts used ctr).1.map Prod.fst).Sublist mts := by
  intro mts
  induction mts with
  | nil =>
    intro used ctr
    simp [buildSlots]
  | cons mt rest ih =>
    intro used ctr
    rcases hp : pickSlot rnd (rbt mt) (fbt mt) used ctr with ⟨o, ctr2⟩
    cases o with
    | none =>
      have hb : buildSlots rnd rbt fbt (mt :: rest) used ctr =
          buildSlots rnd rbt fbt rest used ctr2 := by
        simp only [buildSlots, hp]
      rw [hb]
      obtain ⟨ih1, ih2, ih3, ih4⟩ := ih used ctr2
      exact ⟨ih1, ih2, ih3, ih4.cons mt⟩
    | some r =>
      have hb : buildSlots rnd rbt fbt (mt :: rest) used ctr =
          ((mt, r) :: (buildSlots rnd rbt fbt rest (r.id :: used) ctr2).1,
           (buildSlots rnd rbt fbt rest (r.id :: used) ctr2).2) := by
        simp only [buildSlots, hp]
      obtain ⟨hfresh, hpool⟩ := pickSlot_some hp
      obtain ⟨ih1, ih2, ih3, ih4⟩ := ih (r.id :: used) ctr2
      rw [hb]
      refine ⟨?_, ?_, ?_, ?_⟩
      · intro x
        constructor
        · intro hx
          rcases (ih1 x).mp hx with ⟨s, hs, hid⟩ | hu
          · exact Or.inl ⟨s, List.mem_cons_of_mem _ hs, hid⟩
          · rcases List.mem_cons.mp hu with h | h
            · exact Or.inl ⟨(mt, r), List.mem_cons_self _ _, h.symm⟩
            · exact Or.inr h
        · intro hx
          rcases hx with ⟨s, hs, hid⟩ | hu
          · rcases List.mem_cons.mp hs with h | h
            · subst h
              exact (ih1 x).mpr (Or.inr (by rw [← hid]; exact List.mem_cons_self _ _))
            · exact (ih1 x).mpr (Or.inl ⟨s, h, hid⟩)
          · exact (ih1 x).mpr (Or.inr (List.mem_cons_of_mem _ hu))
      · intro s hs
        rcases List.mem_cons.mp hs with h | h
        · subst h
          exact ⟨hfresh, hpool⟩
        · obtain ⟨hni, hpl⟩ := ih2 s h
          exact ⟨fun hc => hni (List.mem_cons_of_mem _ hc), hpl⟩
      · rw [List.map_cons]
        refine List.nodup_cons.mpr ⟨?_, ih3⟩
        intro hc
        rcases List.mem_map.mp hc with ⟨s, hs, hid⟩
        exact (ih2 s hs).1 (by rw [hid]; exact List.mem_cons_self _ _)
      · rw [List.map_cons]
        exact (ih4.cons₂ mt)

/-- The day labels of the assembled plan are `Day day`, `Day (day+1)`,
... in order, one per requested day. -/
theorem buildDays_labels (rnd : Nat → Nat) (rbt fbt : String → List Recipe) :
    ∀ (remaining day : Nat) (used : List Nat) (ctr : Nat),
      (buildDays rnd rbt fbt day remaining used ctr).map Prod.fst =
        (List.range remaining).map (fun i => "Day " ++ toString (day + i)) := by
  intro remaining
  induction remaining with
  | zero =>
    intro day used ctr
    simp [buildDays]
  | succ n ih =>
    intro day used ctr
    simp only [buildDays, List.map_cons]
    rw [ih (day + 1)]
    rw [List.range_succ_eq_map]
    have harith : ∀ i : Nat, day + 1 + i = day + (i + 1) := by omega
    simp [List.map_map, Function.comp, harith]

/-- Across the whole assembled plan, the filled ids avoid the initial
used set and are pairwise distinct. -/
theorem buildDays_ids (rnd : Nat → Nat) (rbt fbt : String → List Recipe) :
    ∀ (remaining day : Nat) (used : List Nat) (ctr : Nat),
      (∀ x ∈ planIds (buildDays rnd rbt fbt day remaining used ctr), x ∉ used) ∧
      (planIds (buildDays rnd rbt fbt day remaining used ctr)).Nodup := by
  intro remaining
  induction remaining with
  | zero =>
    intro day used ctr
    simp [buildDays, planIds, planSlots]
  | succ n ih =>
    intro day used ctr
    have hplan : planIds (buildDays rnd rbt fbt day (n + 1) used ctr) =
        ((buildSlots rnd rbt fbt meal_types used ctr).1.map (fun s => s.2.id)) ++
          planIds (buildDays rnd rbt fbt (day + 1) n
            (buildSlots rnd rbt fbt meal_types used ctr).2.1
            (buildSlots rnd rbt fbt meal_types used ctr).2.2) := by
      simp [buildDays, planIds, planSlots]
    obtain ⟨bs1, bs2, bs3, bs4⟩ := buildSlots_spec rnd rbt fbt meal_types used ctr
    obtain ⟨ihf, ihn⟩ := ih (day + 1)
      (buildSlots rnd rbt fbt meal_types used ctr).2.1
      (buildSlots rnd rbt fbt meal_types used ctr).2.2
    rw [hplan]
    constructor
    · intro x hx
      rcases List.mem_append.mp hx with h | h
      · rcases List.mem_map.mp h with ⟨s, hs, hid⟩
        exact fun hc => (bs2 s hs).1 (hid ▸ hc)
      · intro hc
        exact ihf x h ((bs1 x).mpr (Or.inr hc))
    · refine List.Nodup.append bs3 ihn ?_
      intro x hx1 hx2
      rcases List.mem_map.mp hx1 with ⟨s, hs, hid⟩
      exact ihf x hx2 ((bs1 x).mpr (Or.inl ⟨s, hs, hid⟩))

/-- Every day entry of the assembled plan uses as keys a subsequence of
the six fixed meal categories. -/
theorem buildDays_keys (rnd : Nat → Nat) (rbt fbt : String → List Recipe) :
    ∀ (remaining day : Nat) (used : List Nat) (ctr : Nat),
      ∀ d ∈ buildDays rnd rbt fbt day remaining used ctr,
        (d.2.map Prod.fst).Sublist meal_types := by
  intro remaining
  induction remaining with
  | zero =>
    intro day used ctr d hd
    simp [buildDays] at hd
  | succ n ih =>
    intro day used ctr d hd
    simp only [buildDays] at hd
    rcases List.mem_cons.mp hd with h | h
    · subst h
      exact (buildSlots_spec rnd rbt fbt meal_types used ctr).2.2.2
    · exact ih (day + 1) _ _ d h

/-- The slot ids of one category form a subsequence of all slot ids. -/
theorem categoryIds_sublist (plan : List (String × List (String × Recipe)))
    (mt : String) : (categoryIds plan mt).Sublist (planIds plan) := by
  unfold categoryIds planIds
  rw [List.map_map]
  exact (List.filter_sublist (planSlots plan)).map (fun s => s.2.id)

/-- C10: in every plan returned by the plan assembler, no recipe identity
appears in more than one (day, category) slot, unconditionally: the
assembler leaves slots absent rather than ever reusing an already-used
recipe identity. -/
theorem C10_no_repeat_unconditional (c : Catalog) (days : Nat)
    (ingredients dietary_prefs : List String) (race : Option String)
    (rnd : Nat → Nat) :
    (planIds (generate_meal_plan c days ingredients dietary_prefs race rnd)).Nodup := by
  unfold generate_meal_plan
  exact (buildDays_ids rnd _ _ days 1 [] 0).2

/-- C4: if the combined primary and fallback pool of a category has at
least as many distinct recipe identities as that category has day slots,
no recipe identity appears in two slots of that category (this holds in
fact unconditionally, by `C10_no_repeat_unconditional`). -/
theorem C4_no_repeat_invariant (c : Catalog) (days : Nat)
    (ingredients dietary_prefs : List String) (race : Option String)
    (rnd : Nat → Nat) (mt : String)
    (hpool : days ≤
      (((get_recipes_by_filters c ingredients dietary_prefs race (some mt) true ++
          get_recipes_by_filters c [] [] none (some mt) true).map
        Recipe.id).dedup).length) :
    (categoryIds (generate_meal_plan c days ingredients dietary_prefs race rnd) mt).Nodup := by
  have hall : (planIds (generate_meal_plan c days ingredients dietary_prefs race rnd)).Nodup := by
    unfold generate_meal_plan
    exact (buildDays_ids rnd _ _ days 1 [] 0).2
  exact hall.sublist (categoryIds_sublist _ mt)

/-- Witness for C4 at a concrete input: three distinct breakfast ids
cover the two breakfast slots of a two-day plan without repetition. -/
theorem C4_no_repeat_invariant_witness :
    (categoryIds (generate_meal_plan ctThree 2 [] [] none (fun _ => 0)) "breakfast").Nodup :=
  C4_no_repeat_invariant ctThree 2 [] [] none (fun _ => 0) "breakfast" (by decide)

/-- C3 (amended): the plan has exactly `days` day entries labelled
`Day 1` to `Day N` in order, and the keys of each day entry are, in the fixed
order, a subsequence of the six meal categories; a category whose slot
was not filled is omitted rather than present with an absent value. -/
theorem C3_day_structure (c : Catalog) (days : Nat)
    (ingredients dietary_prefs : List String) (race : Option String)
    (rnd : Nat → Nat) :
    (generate_meal_plan c days ingredients dietary_prefs race rnd).map Prod.fst =
      (List.range days).map (fun i => "Day " ++ toString (i + 1)) ∧
    ∀ d ∈ generate_meal_plan c days ingredients dietary_prefs race rnd,
      (d.2.map Prod.fst).Sublist meal_types := by
  constructor
  · unfold generate_meal_plan
    rw [buildDays_labels rnd _ _ days 1 [] 0]
    have harith : ∀ i : Nat, 1 + i = i + 1 := fun i => Nat.add_comm 1 i
    simp [harith]
  · intro d hd
    unfold generate_meal_plan at hd
    exact buildDays_keys rnd _ _ days 1 [] 0 d hd

/-- Witness for C3 at a concrete input: a two-day plan over the
three-breakfast catalog has labels Day 1 and Day 2, and the Day 1 entry
(whose single key is breakfast) has keys forming a subsequence of the six
categories. -/
theorem C3_day_structure_witness :
    (generate_meal_plan ctThree 2 [] [] none (fun _ => 0)).map Prod.fst =
      (List.range 2).map (fun i => "Day " ++ toString (i + 1)) ∧
    ((("Day 1", [("breakfast", mkRecipe 1 "Pancakes" "breakfast")]) :
        String × List (String × Recipe)).2.map Prod.fst).Sublist meal_types := by
  refine ⟨(C3_day_structure ctThree 2 [] [] none (fun _ => 0)).1,
    (C3_day_structure ctThree 2 [] [] none (fun _ => 0)).2 _ ?_⟩
  decide

/-- C3 counterexample to the claim as stated: on the empty catalog the
single day entry exists but holds none of the six categories as a key, so
a day entry does not always contain exactly the six categories as keys. -/
theorem C3_counterexample :
    (generate_meal_plan ctEmpty 1 [] [] none (fun _ => 0)).length = 1 ∧
    ((generate_meal_plan ctEmpty 1 [] [] none (fun _ => 0)).all
      (fun d => meal_types.all (fun mt => (d.2.map Prod.fst).contains mt))) = false := by
  decide

/-! ### Lemmas about the catalog query -/

/-- Membership in the query result is membership in the recipes table
plus the WHERE clause, for both orderings. -/
theorem mem_get_recipes {c : Catalog} {ingredients dietary_prefs : List String}
    {race meal_type : Option String} {skip_order : Bool} {r : Recipe} :
    r ∈ get_recipes_by_filters c ingredients dietary_prefs race meal_type skip_order ↔
      r ∈ c.recipes ∧
        recipePassesFilters c ingredients dietary_prefs race meal_type r = true := by
  unfold get_recipes_by_filters
  cases skip_order <;>
    simp [List.mem_insertionSort, List.mem_filter]

/-- C1 (amended): with a non-empty term list and no other filters, a
recipe is in the result exactly when it is in the catalog and at least
one term is matched by one of its ingredients, directly or through a
substitution: the terms combine disjunctively, not conjunctively. -/
theorem C1_terms_disjunctive (c : Catalog) (terms : List String) (r : Recipe)
    (hne : terms ≠ []) :
    r ∈ get_recipes_by_filters c terms [] none none true ↔
      r ∈ c.recipes ∧ ∃ t ∈ terms, recipeMatchesTerm c r t = true := by
  rw [mem_get_recipes]
  unfold recipePassesFilters
  simp [List.any_eq_true, hne]

/-- Witness for C1 at a concrete input: the apple recipe is returned for
the single term apple because one of its ingredients matches it. -/
theorem C1_terms_disjunctive_witness :
    mkRecipe 1 "Apple Bowl" "breakfast" ∈
      get_recipes_by_filters ctApple ["apple"] [] none none true :=
  (C1_terms_disjunctive ctApple ["apple"] (mkRecipe 1 "Apple Bowl" "breakfast")
      (by decide)).mpr
    ⟨by decide, "apple", by decide, by decide⟩

/-- C1 counterexample to the claim as stated: the apple recipe is in the
result for the term list [apple, zucchini] although no ingredient of it
matches the term zucchini, so membership does not require every term to
be matched. -/
theorem C1_counterexample :
    mkRecipe 1 "Apple Bowl" "breakfast" ∈
        get_recipes_by_filters ctApple ["apple", "zucchini"] [] none none true ∧
      ¬ (∀ t ∈ (["apple", "zucchini"] : List String),
          recipeMatchesTerm ctApple (mkRecipe 1 "Apple Bowl" "breakfast") t = true) := by
  decide

/-- C6: when a substitution row registers ingredient `b` as substitute
for ingredient `a`, any single-term query whose trimmed lowercased term
occurs in the name of `a` returns every catalog recipe containing `b`,
even if no ingredient of that recipe matches the term itself. -/
theorem C6_substitution_matching (c : Catalog) (term : String) (r : Recipe)
    (a b : Ingredient) (s : Substitution) (ri : RecipeIngredient)
    (hr : r ∈ c.recipes)
    (hs : s ∈ c.substitutions)
    (hsa : s.ingredient_id = a.id)
    (hsb : s.substitute_ingredient_id = b.id)
    (ha : a ∈ c.ingredients)
    (hb : b ∈ c.ingredients)
    (hname : strContains (strLower a.name) (strLower (strTrim term)) = true)
    (hri : ri ∈ c.recipe_ingredients)
    (hrir : ri.recipe_id = r.id)
    (hrib : ri.ingredient_id = b.id) :
    r ∈ get_recipes_by_filters c [term] [] none none true := by
  rw [mem_get_recipes]
  refine ⟨hr, ?_⟩
  unfold recipePassesFilters
  have hmatch : recipeMatchesTerm c r term = true := by
    unfold recipeMatchesTerm
    rw [List.any_eq_true]
    refine ⟨ri, hri, ?_⟩
    rw [Bool.and_eq_true, beq_iff_eq, List.any_eq_true]
    refine ⟨hrir, b, hb, ?_⟩
    rw [Bool.and_eq_true, beq_iff_eq]
    refine ⟨hrib.symm, ?_⟩
    unfold ingMatchesTerm
    rw [Bool.or_eq_true]
    refine Or.inr (List.elem_eq_true_of_mem ?_)
    unfold substMatchIds
    rw [List.mem_map]
    refine ⟨s, List.mem_filter.mpr ⟨hs, ?_⟩, hsb⟩
    rw [List.any_eq_true]
    exact ⟨a, ha, by rw [Bool.and_eq_true, beq_iff_eq]; exact ⟨hsa, hname⟩⟩
  simp [hmatch]

/-- Witness for C6 at the scenario of the specification: shrimp substitutes
for salmon, so the shrimp recipe is returned for the term salmon. -/
theorem C6_substitution_matching_witness :
    mkRecipe 10 "Shrimp Skillet" "dinner" ∈
      get_recipes_by_filters ctSub ["salmon"] [] none none true :=
  C6_substitution_matching ctSub "salmon" (mkRecipe 10 "Shrimp Skillet" "dinner")
    { id := 1, name := "Salmon", category := "protein" }
    { id := 2, name := "Shrimp", category := "protein" }
    { ingredient_id := 1, substitute_ingredient_id := 2 }
    { recipe_id := 10, ingredient_id := 2 }
    (by decide) (by decide) rfl rfl (by decide) (by decide) (by decide)
    (by decide) rfl rfl

/-- C8 (amended): every term is trimmed before matching, and the route
layer drops whitespace-only terms before calling the query; but the query
itself does not drop them: a term that is empty after trimming matches
exactly the recipes having at least one ingredient row, so passing it
directly to the query can change the result. -/
theorem C8_term_trimming :
    (∀ (c : Catalog) (r : Recipe) (t1 t2 : String), strTrim t1 = strTrim t2 →
      recipeMatchesTerm c r t1 = recipeMatchesTerm c r t2) ∧
    (∀ (c : Catalog) (r : Recipe) (t : String), strTrim t = "" →
      (recipeMatchesTerm c r t = true ↔
        ∃ ri ∈ c.recipe_ingredients, ri.recipe_id = r.id ∧
          ∃ i ∈ c.ingredients, i.id = ri.ingredient_id)) ∧
    (∀ (s : String) (t : String), t ∈ parseIngredientsInput s → t ≠ "") := by
  refine ⟨?_, ?_, ?_⟩
  · intro c r t1 t2 h
    unfold recipeMatchesTerm ingMatchesTerm
    rw [h]
  · intro c r t h
    unfold recipeMatchesTerm ingMatchesTerm
    rw [h]
    have hempty : ∀ s : String, strContains (strLower s) (strLower "") = true := by
      intro s
      show containsSub (strLower s).data [] = true
      cases (strLower s).data <;> simp [containsSub, List.isPrefixOf]
    simp [hempty, List.any_eq_true]
  · intro s t ht
    unfold parseIngredientsInput at ht
    split at ht
    · simp at ht
    · rcases List.mem_filter.mp ht with ⟨-, hpred⟩
      intro hc
      subst hc
      simp at hpred

/-- Witness for C8 at concrete inputs: trimming makes a padded and an
unpadded apple term agree, a whitespace-only term matches the apple
recipe through its ingredient row, and parsing a comma list drops the
whitespace-only field. -/
theorem C8_term_trimming_witness :
    recipeMatchesTerm ctApple (mkRecipe 1 "Apple Bowl" "breakfast") " apple " =
        recipeMatchesTerm ctApple (mkRecipe 1 "Apple Bowl" "breakfast") "apple" ∧
      recipeMatchesTerm ctApple (mkRecipe 1 "Apple Bowl" "breakfast") "  " = true ∧
      ("a" ∈ parseIngredientsInput "a, ,b" → "a" ≠ "") := by
  refine ⟨C8_term_trimming.1 ctApple _ " apple " "apple" (by decide), ?_, ?_⟩
  · exact (C8_term_trimming.2.1 ctApple _ "  " (by decide)).mpr
      ⟨{ recipe_id := 1, ingredient_id := 1 }, by decide, rfl,
        { id := 1, name := "Apple", category := "produce" }, by decide, rfl⟩
  · exact C8_term_trimming.2.2 "a, ,b" "a"

/-- C8 counterexample to the claim as stated: a whitespace-only term is
not dropped by the query; it excludes the ingredient-less recipe, so the
result differs from the unfiltered query. -/
theorem C8_counterexample :
    get_recipes_by_filters ctApplePlain [" "] [] none none true ≠
      get_recipes_by_filters ctApplePlain [] [] none none true := by
  decide

/-! ### Lemmas about the shopping-list aggregator -/

theorem lexLe_total : ∀ l1 l2 : List Char, lexLe l1 l2 = true ∨ lexLe l2 l1 = true := by
  intro l1
  induction l1 with
  | nil => intro l2; left; rfl
  | cons a as ih =>
    intro l2
    cases l2 with
    | nil => right; rfl
    | cons b bs =>
      by_cases hab : a = b
      · subst hab
        rcases ih bs with h | h
        · left; simpa [lexLe] using h
        · right; simpa [lexLe] using h
      · rcases lt_or_gt_of_ne hab with h | h
        · left; simp [lexLe, hab, h]
        · right; simp [lexLe, Ne.symm hab, h]

theorem lexLe_trans : ∀ l1 l2 l3 : List Char,
    lexLe l1 l2 = true → lexLe l2 l3 = true → lexLe l1 l3 = true := by
  intro l1
  induction l1 with
  | nil => intro l2 l3 _ _; rfl
  | cons a as ih =>
    intro l2 l3 h12 h23
    cases l2 with
    | nil => simp [lexLe] at h12
    | cons b bs =>
      cases l3 with
      | nil => simp [lexLe] at h23
      | cons c cs =>
        by_cases hab : a = b
        · subst hab
          by_cases hac : a = c
          · subst hac
            simp only [lexLe, if_pos rfl] at h12 h23 ⊢
            exact ih bs cs h12 h23
          · simp only [lexLe, if_neg hac] at h23 ⊢
            exact h23
        · simp only [lexLe, if_neg hab] at h12
          rw [decide_eq_true_eq] at h12
          by_cases hbc : b = c
          · subst hbc
            simp only [lexLe, if_neg hab]
            exact decide_eq_true h12
          · simp only [lexLe, if_neg hbc] at h23
            rw [decide_eq_true_eq] at h23
            have hac : a < c := lt_trans h12 h23
            simp only [lexLe, if_neg (ne_of_lt hac)]
            exact decide_eq_true hac

theorem sortStrings_sorted (l : List String) :
    List.Sorted (fun a b : String => strLe a b = true) (sortStrings l) := by
  haveI : IsTotal String (fun a b => strLe a b = true) :=
    ⟨fun a b => lexLe_total a.data b.data⟩
  haveI : IsTrans String (fun a b => strLe a b = true) :=
    ⟨fun a b c => lexLe_trans a.data b.data c.data⟩
  exact List.sorted_insertionSort _ l

theorem sortStrings_nodup {l : List String} (h : l.Nodup) :
    (sortStrings l).Nodup :=
  (List.perm_insertionSort _ l).nodup_iff.mpr h

/-- Membership in the category accumulator after one insertion. -/
theorem addNeeded_mem : ∀ (acc : List (String × List String)) (icat iname qcat qname : String),
    (∃ p ∈ addNeeded acc icat iname, p.1 = qcat ∧ qname ∈ p.2) ↔
      ((∃ p ∈ acc, p.1 = qcat ∧ qname ∈ p.2) ∨ (icat = qcat ∧ iname = qname)) := by
  intro acc
  induction acc with
  | nil =>
    intro icat iname qcat qname
    constructor
    · rintro ⟨p, hp, h1, h2⟩
      rw [show addNeeded [] icat iname = [(icat, [iname])] from rfl,
        List.mem_singleton] at hp
      subst hp
      simp only [List.mem_singleton] at h2
      exact Or.inr ⟨h1, h2.symm⟩
    · rintro (⟨p, hp, -, -⟩ | ⟨h1, h2⟩)
      · exact absurd hp (List.not_mem_nil p)
      · exact ⟨(icat, [iname]), List.mem_singleton.mpr rfl, h1, by simp [h2]⟩
  | cons hd rest ih =>
    rcases hd with ⟨c0, names⟩
    intro icat iname qcat qname
    show (∃ p ∈ (if c0 = icat then
        (c0, if names.contains iname then names else names ++ [iname]) :: rest
      else (c0, names) :: addNeeded rest icat iname), p.1 = qcat ∧ qname ∈ p.2) ↔ _
    by_cases hc : c0 = icat
    · rw [if_pos hc]
      subst hc
      by_cases hn : names.contains iname = true
      · rw [if_pos hn]
        have hnm : iname ∈ names := by simpa using hn
        constructor
        · rintro ⟨p, hp, h⟩
          exact Or.inl ⟨p, hp, h⟩
        · rintro (⟨p, hp, h⟩ | ⟨h1, h2⟩)
          · exact ⟨p, hp, h⟩
          · exact ⟨(c0, names), List.mem_cons_self _ _, h1, h2 ▸ hnm⟩
      · rw [if_neg hn]
        constructor
        · rintro ⟨p, hp, h1, h2⟩
          rcases List.mem_cons.mp hp with h | h
          · subst h
            simp only at h1 h2
            rcases List.mem_append.mp h2 with h2 | h2
            · exact Or.inl ⟨(c0, names), List.mem_cons_self _ _, h1, h2⟩
            · simp only [List.mem_singleton] at h2
              exact Or.inr ⟨h1, h2.symm⟩
          · exact Or.inl ⟨p, List.mem_cons_of_mem _ h, h1, h2⟩
        · rintro (⟨p, hp, h1, h2⟩ | ⟨h1, h2⟩)
          · rcases List.mem_cons.mp hp with h | h
            · subst h
              exact ⟨(c0, names ++ [iname]), List.mem_cons_self _ _, h1,
                List.mem_append.mpr (Or.inl h2)⟩
            · exact ⟨p, List.mem_cons_of_mem _ h, h1, h2⟩
          · exact ⟨(c0, names ++ [iname]), List.mem_cons_self _ _, h1,
              List.mem_append.mpr (Or.inr (by simp [h2]))⟩
    · rw [if_neg hc]
      constructor
      · rintro ⟨p, hp, h1, h2⟩
        rcases List.mem_cons.mp hp with h | h
        · subst h
          exact Or.inl ⟨(c0, names), List.mem_cons_self _ _, h1, h2⟩
        · rcases (ih icat iname qcat qname).mp ⟨p, h, h1, h2⟩ with h3 | h3
          · rcases h3 with ⟨q, hq, hh⟩
            exact Or.inl ⟨q, List.mem_cons_of_mem _ hq, hh⟩
          · exact Or.inr h3
      · rintro (⟨p, hp, h1, h2⟩ | h3)
        · rcases List.mem_cons.mp hp with h | h
          · subst h
            exact ⟨(c0, names), List.mem_cons_self _ _, h1, h2⟩
          · rcases (ih icat iname qcat qname).mpr (Or.inl ⟨p, h, h1, h2⟩) with ⟨q, hq, hh⟩
            exact ⟨q, List.mem_cons_of_mem _ hq, hh⟩
        · rcases (ih icat iname qcat qname).mpr (Or.inr h3) with ⟨q, hq, hh⟩
          exact ⟨q, List.mem_cons_of_mem _ hq, hh⟩

/-- Membership in the accumulator after folding all fetched rows: a name
is recorded under a category exactly when it was already there or some
non-held row carries that name and category. -/
theorem foldl_needed_mem (pantry : List String) (qcat qname : String) :
    ∀ (rows : List (String × String)) (acc : List (String × List String)),
      (∃ p ∈ rows.foldl (fun acc row =>
          if heldByPantry pantry row.1 then acc else addNeeded acc row.2 row.1) acc,
        p.1 = qcat ∧ qname ∈ p.2) ↔
        ((∃ p ∈ acc, p.1 = qcat ∧ qname ∈ p.2) ∨
          ((qname, qcat) ∈ rows ∧ heldByPantry pantry qname = false)) := by
  intro rows
  induction rows with
  | nil =>
    intro acc
    simp
  | cons row rest ih =>
    intro acc
    rw [List.foldl_cons, ih]
    by_cases hh : heldByPantry pantry row.1 = true
    · rw [if_pos hh]
      constructor
      · rintro (h | ⟨hm, hf⟩)
        · exact Or.inl h
        · exact Or.inr ⟨List.mem_cons_of_mem _ hm, hf⟩
      · rintro (h | ⟨hm, hf⟩)
        · exact Or.inl h
        · rcases List.mem_cons.mp hm with he | hm2
          · exfalso
            have hq : qname = row.1 := congrArg Prod.fst he
            rw [← hq] at hh
            rw [hf] at hh
            exact Bool.false_ne_true hh
          · exact Or.inr ⟨hm2, hf⟩
    · rw [if_neg hh, addNeeded_mem]
      have hhf : heldByPantry pantry row.1 = false := by
        simpa using hh
      constructor
      · rintro ((h | ⟨h2, h1⟩) | ⟨hm, hf⟩)
        · exact Or.inl h
        · refine Or.inr ⟨?_, by rw [← h1]; exact hhf⟩
          have : (qname, qcat) = row := by
            rcases row with ⟨rn, rc⟩
            simp only at h1 h2
            rw [← h1, ← h2]
          rw [this]
          exact List.mem_cons_self _ _
        · exact Or.inr ⟨List.mem_cons_of_mem _ hm, hf⟩
      · rintro (h | ⟨hm, hf⟩)
        · exact Or.inl (Or.inl h)
        · rcases List.mem_cons.mp hm with he | hm2
          · exact Or.inl (Or.inr ⟨(congrArg Prod.snd he).symm, (congrArg Prod.fst he).symm⟩)
          · exact Or.inr ⟨hm2, hf⟩

/-- C5: an ingredient name appears in the shopping list under a category
exactly when some fetched plan-ingredient row carries that original-case
name and category and no normalized pantry entry matches it by the
bidirectional case-insensitive substring test. -/
theorem C5_pantry_filtering (c : Catalog)
    (plan : List (String × List (String × Recipe))) (pantry : List String)
    (qcat qname : String) :
    (∃ p ∈ calculate_missing_ingredients c plan pantry, p.1 = qcat ∧ qname ∈ p.2) ↔
      ((qname, qcat) ∈ fetchPlanIngredients c (plan_recipe_ids plan) ∧
        heldByPantry pantry qname = false) := by
  unfold calculate_missing_ingredients
  dsimp only
  split
  · rename_i hids
    have hnil : plan_recipe_ids plan = [] := by
      simpa [List.isEmpty_iff] using hids
    have hfetch : fetchPlanIngredients c (plan_recipe_ids plan) = [] := by
      rw [hnil]
      unfold fetchPlanIngredients
      rw [List.filter_eq_nil_iff.mpr (by intro ri _ hc; simp at hc)]
      rfl
    simp [hfetch]
  · have hmap : ∀ needed : List (String × List String),
        (∃ p ∈ needed.map (fun p => (p.1, sortStrings p.2)), p.1 = qcat ∧ qname ∈ p.2) ↔
          (∃ q ∈ needed, q.1 = qcat ∧ qname ∈ q.2) := by
      intro needed
      constructor
      · rintro ⟨p, hp, h1, h2⟩
        rcases List.mem_map.mp hp with ⟨q, hq, rfl⟩
        refine ⟨q, hq, h1, ?_⟩
        simpa [sortStrings] using h2
      · rintro ⟨q, hq, h1, h2⟩
        refine ⟨(q.1, sortStrings q.2), List.mem_map_of_mem _ hq, h1, ?_⟩
        simpa [sortStrings] using h2
    rw [hmap, foldl_needed_mem]
    simp

/-- Witness for C5 at the scenario of the specification: with pantry [rice]
the stir-fry plan needs Ginger under produce and does not need Rice under
grains. -/
theorem C5_pantry_filtering_witness :
    (∃ p ∈ calculate_missing_ingredients ctRice planRice ["rice"],
        p.1 = "produce" ∧ "Ginger" ∈ p.2) ∧
      ¬ (∃ p ∈ calculate_missing_ingredients ctRice planRice ["rice"],
        p.1 = "grains" ∧ "Rice" ∈ p.2) := by
  constructor
  · exact (C5_pantry_filtering ctRice planRice ["rice"] "produce" "Ginger").mpr
      ⟨by decide, by decide⟩
  · intro h
    have h2 := (C5_pantry_filtering ctRice planRice ["rice"] "grains" "Rice").mp h
    have : heldByPantry ["rice"] "Rice" = true := by decide
    rw [h2.2] at this
    exact Bool.false_ne_true this

/-- C7: when no recipe id referenced by the plan has any ingredient row,
in particular for the empty plan, a plan whose slots are all absent, or a
plan of ingredient-less recipes, the aggregator returns the empty mapping
(and, being a total function, raises nothing). -/
theorem C7_degenerate_plan_empty (c : Catalog)
    (plan : List (String × List (String × Recipe))) (pantry : List String)
    (h : ∀ rid ∈ plan_recipe_ids plan, ∀ ri ∈ c.recipe_ingredients, ri.recipe_id ≠ rid) :
    calculate_missing_ingredients c plan pantry = [] := by
  unfold calculate_missing_ingredients
  dsimp only
  split
  · rfl
  · have hrows : fetchPlanIngredients c (plan_recipe_ids plan) = [] := by
      unfold fetchPlanIngredients
      rw [List.filter_eq_nil_iff.mpr ?_]
      · rfl
      · intro ri hri hc
        have hmem : ri.recipe_id ∈ plan_recipe_ids plan := by
          simpa using hc
        exact h _ hmem ri hri rfl
    rw [hrows]
    rfl

/-- Witness for C7 at a concrete input: a plan over the three-breakfast
catalog, whose recipes have no ingredient rows and whose second day has
every slot absent, yields the empty mapping. -/
theorem C7_degenerate_plan_empty_witness :
    calculate_missing_ingredients ctThree
      [("Day 1", [("breakfast", mkRecipe 1 "Pancakes" "breakfast")]), ("Day 2", [])]
      ["rice"] = [] :=
  C7_degenerate_plan_empty ctThree
    [("Day 1", [("breakfast", mkRecipe 1 "Pancakes" "breakfast")]), ("Day 2", [])]
    ["rice"] (by decide)

/-- C9: the aggregator is a function of the catalog, plan and pantry, so
two calls on the same input give the same output; moreover the output is
canonical in that every category list is sorted and duplicate-free. -/
theorem C9_aggregation_idempotent (c : Catalog)
    (plan : List (String × List (String × Recipe))) (pantry : List String) :
    calculate_missing_ingredients c plan pantry =
        calculate_missing_ingredients c plan pantry ∧
      ∀ p ∈ calculate_missing_ingredients c plan pantry,
        List.Sorted (fun a b : String => strLe a b = true) p.2 ∧ p.2.Nodup := by
  refine ⟨rfl, ?_⟩
  intro p hp
  unfold calculate_missing_ingredients at hp
  dsimp only at hp
  split at hp
  · exact absurd hp (List.not_mem_nil p)
  · rcases List.mem_map.mp hp with ⟨q, hq, rfl⟩
    refine ⟨sortStrings_sorted q.2, sortStrings_nodup ?_⟩
    have hnodup : ∀ (rows : List (String × String)) (acc : List (String × List String)),
        (∀ x ∈ acc, x.2.Nodup) →
        ∀ x ∈ rows.foldl (fun acc row =>
            if heldByPantry pantry row.1 then acc else addNeeded acc row.2 row.1) acc,
          x.2.Nodup := by
      intro rows
      induction rows with
      | nil =>
        intro acc hacc
        simpa using hacc
      | cons row rest ih =>
        intro acc hacc
        rw [List.foldl_cons]
        apply ih
        by_cases hh : heldByPantry pantry row.1 = true
        · rw [if_pos hh]; exact hacc
        · rw [if_neg hh]
          have haddNodup : ∀ (a : List (String × List String)) (icat iname : String),
              (∀ x ∈ a, x.2.Nodup) → ∀ x ∈ addNeeded a icat iname, x.2.Nodup := by
            intro a
            induction a with
            | nil =>
              intro icat iname _ x hx
              rw [show addNeeded [] icat iname = [(icat, [iname])] from rfl,
                List.mem_singleton] at hx
              subst hx
              simp
            | cons hd tl iht =>
              rcases hd with ⟨c0, names⟩
              intro icat iname ha x hx
              rw [show addNeeded ((c0, names) :: tl) icat iname =
                  (if c0 = icat then
                    (c0, if names.contains iname then names else names ++ [iname]) :: tl
                  else (c0, names) :: addNeeded tl icat iname) from rfl] at hx
              by_cases hc : c0 = icat
              · rw [if_pos hc] at hx
                rcases List.mem_cons.mp hx with he | hm
                · subst he
                  have hnames : names.Nodup := ha (c0, names) (List.mem_cons_self _ _)
                  by_cases hn : names.contains iname = true
                  · rw [if_pos hn]
                    exact hnames
                  · have hnm : iname ∉ names := by simpa using hn
                    simp only [if_neg hn]
                    exact List.Nodup.append hnames (List.nodup_singleton _)
                      (fun y hy1 hy2 => hnm (by rwa [List.mem_singleton.mp hy2] at hy1))
                · exact ha x (List.mem_cons_of_mem _ hm)
              · rw [if_neg hc] at hx
                rcases List.mem_cons.mp hx with he | hm
                · subst he
                  exact ha _ (List.mem_cons_self _ _)
                · exact iht icat iname (fun y hy => ha y (List.mem_cons_of_mem _ hy)) x hm
          exact haddNodup acc row.2 row.1 hacc
    exact hnodup _ [] (by intro x hx; exact absurd hx (List.not_mem_nil x)) q hq

/-- Witness for C9 at a concrete input: the produce list of the rice
scenario is sorted and duplicate-free. -/
theorem C9_aggregation_idempotent_witness :
    calculate_missing_ingredients ctRice planRice ["rice"] =
        calculate_missing_ingredients ctRice planRice ["rice"] ∧
      (List.Sorted (fun a b : String => strLe a b = true) ["Ginger"] ∧
        (["Ginger"] : List String).Nodup) :=
  ⟨(C9_aggregation_idempotent ctRice planRice ["rice"]).1,
    (C9_aggregation_idempotent ctRice planRice ["rice"]).2 ("produce", ["Ginger"])
      (by decide)⟩

/-! ### The three-breakfast scenario of the plan assembler -/

theorem pickSlot_nil (rnd : Nat → Nat) (used : List Nat) (ctr : Nat) :
    pickSlot rnd [] [] used ctr = (none, ctr) := rfl

theorem F3_breakfast : F3 "breakfast" = [rPan, rOme, rPor] := by decide

theorem F3_lunch : F3 "lunch" = [] := by decide

theorem F3_dinner : F3 "dinner" = [] := by decide

theorem F3_appetizer : F3 "appetizer" = [] := by decide

theorem F3_dessert : F3 "dessert" = [] := by decide

theorem F3_drink : F3 "drink" = [] := by decide

/-- Over `ctThree`, one day of slot filling picks exactly one breakfast
recipe from the pool minus the used ids, when that pool is non-empty; the
five other categories stay absent. -/
theorem ctThree_slots_pick (rnd : Nat → Nat) (used : List Nat) (ctr : Nat)
    (h : ¬ ([rPan, rOme, rPor].filter (fun r => !(used.contains r.id))).isEmpty = true) :
    buildSlots rnd F3 F3 meal_types used ctr =
      ([("breakfast",
          chooseFrom rnd ctr ([rPan, rOme, rPor].filter (fun r => !(used.contains r.id))))],
        (chooseFrom rnd ctr
          ([rPan, rOme, rPor].filter (fun r => !(used.contains r.id)))).id :: used,
        ctr + 1) := by
  have hpick : pickSlot rnd (F3 "breakfast") (F3 "breakfast") used ctr =
      (some (chooseFrom rnd ctr ([rPan, rOme, rPor].filter (fun r => !(used.contains r.id)))),
        ctr + 1) := by
    rw [F3_breakfast]
    unfold pickSlot
    rw [if_neg (show ¬ ([rPan, rOme, rPor].isEmpty = true) from by decide), if_neg h]
  simp only [meal_types, buildSlots, hpick, F3_lunch, F3_dinner, F3_appetizer, F3_dessert,
    F3_drink, pickSlot_nil]

/-- Over `ctThree`, when every pool recipe is already used, a day of slot
filling leaves every slot absent and changes nothing. -/
theorem ctThree_slots_none (rnd : Nat → Nat) (used : List Nat) (ctr : Nat)
    (h : ([rPan, rOme, rPor].filter (fun r => !(used.contains r.id))).isEmpty = true) :
    buildSlots rnd F3 F3 meal_types used ctr = ([], used, ctr) := by
  have hpick : pickSlot rnd (F3 "breakfast") (F3 "breakfast") used ctr = (none, ctr) := by
    rw [F3_breakfast]
    unfold pickSlot
    rw [if_neg (show ¬ ([rPan, rOme, rPor].isEmpty = true) from by decide), if_pos h, if_pos h]
  simp only [meal_types, buildSlots, hpick, F3_lunch, F3_dinner, F3_appetizer, F3_dessert,
    F3_drink, pickSlot_nil]

/-- Once the three breakfast ids are all used, every further day of the
`ctThree` plan is an empty day entry. -/
theorem ctThree_days_done (rnd : Nat → Nat) :
    ∀ (n day ctr : Nat) (used : List Nat),
      rPan.id ∈ used → rOme.id ∈ used → rPor.id ∈ used →
      buildDays rnd F3 F3 day n used ctr =
        (List.range n).map (fun i => ("Day " ++ toString (day + i), [])) := by
  intro n
  induction n with
  | zero =>
    intro day ctr used _ _ _
    simp [buildDays]
  | succ m ih =>
    intro day ctr used h1 h2 h3
    have hfilter : [rPan, rOme, rPor].filter (fun r => !(used.contains r.id)) = [] := by
      rw [List.filter_eq_nil_iff]
      intro r hr
      simp only [List.mem_cons, List.not_mem_nil, or_false] at hr
      rcases hr with rfl | rfl | rfl <;> simp [h1, h2, h3]
    have hslots := ctThree_slots_none rnd used ctr (by rw [hfilter]; rfl)
    rw [show buildDays rnd F3 F3 day (m + 1) used ctr =
        ("Day " ++ toString day, (buildSlots rnd F3 F3 meal_types used ctr).1) ::
          buildDays rnd F3 F3 (day + 1) m
            (buildSlots rnd F3 F3 meal_types used ctr).2.1
            (buildSlots rnd F3 F3 meal_types used ctr).2.2 from rfl]
    rw [hslots]
    dsimp only
    rw [ih (day + 1) ctr used h1 h2 h3]
    rw [List.range_succ_eq_map]
    have harith : ∀ i : Nat, day + 1 + i = day + (i + 1) := by omega
    simp [List.map_map, Function.comp, harith]

/-- For every random stream, the five-day plan over the three-breakfast
catalog fills the breakfast slots of days 1 to 3 with the three distinct
ids 1, 2, 3 in some order and leaves the breakfast slots of days 4 and 5
absent. -/
theorem ctThree_scenario (rnd : Nat → Nat) :
    planSlot (generate_meal_plan ctThree 5 [] [] none rnd) "Day 4" "breakfast" = none ∧
    planSlot (generate_meal_plan ctThree 5 [] [] none rnd) "Day 5" "breakfast" = none ∧
    (categoryIds (generate_meal_plan ctThree 5 [] [] none rnd) "breakfast").Perm [1, 2, 3] := by
  have hgen : generate_meal_plan ctThree 5 [] [] none rnd =
      buildDays rnd F3 F3 1 5 [] 0 := rfl
  rw [hgen]
  rw [show buildDays rnd F3 F3 1 5 [] 0 =
      ("Day 1", (buildSlots rnd F3 F3 meal_types [] 0).1) ::
        buildDays rnd F3 F3 2 4
          (buildSlots rnd F3 F3 meal_types [] 0).2.1
          (buildSlots rnd F3 F3 meal_types [] 0).2.2 from rfl]
  rw [ctThree_slots_pick rnd [] 0 (by decide)]
  dsimp only
  rw [show [rPan, rOme, rPor].filter (fun r => !(([] : List Nat).contains r.id)) =
      [rPan, rOme, rPor] from by decide]
  have hm1 := chooseFrom_mem rnd 0 (l := [rPan, rOme, rPor]) (by decide)
  simp only [List.mem_cons, List.not_mem_nil, or_false] at hm1
  rcases hm1 with h1 | h1 | h1
  · rw [h1]
    rw [show buildDays rnd F3 F3 2 4 (rPan.id :: []) (0 + 1) =
        ("Day 2", (buildSlots rnd F3 F3 meal_types (rPan.id :: []) (0 + 1)).1) ::
          buildDays rnd F3 F3 3 3
            (buildSlots rnd F3 F3 meal_types (rPan.id :: []) (0 + 1)).2.1
            (buildSlots rnd F3 F3 meal_types (rPan.id :: []) (0 + 1)).2.2 from rfl]
    rw [ctThree_slots_pick rnd (rPan.id :: []) (0 + 1) (by decide)]
    dsimp only
    rw [show [rPan, rOme, rPor].filter (fun r => !((rPan.id :: []).contains r.id)) =
        [rOme, rPor] from by decide]
    have hm2 := chooseFrom_mem rnd (0 + 1) (l := [rOme, rPor]) (by decide)
    simp only [List.mem_cons, List.not_mem_nil, or_false] at hm2
    rcases hm2 with h2 | h2
    · rw [h2]
      rw [show buildDays rnd F3 F3 3 3 (rOme.id :: rPan.id :: []) (0 + 1 + 1) =
          ("Day 3", (buildSlots rnd F3 F3 meal_types (rOme.id :: rPan.id :: []) (0 + 1 + 1)).1) ::
            buildDays rnd F3 F3 4 2
              (buildSlots rnd F3 F3 meal_types (rOme.id :: rPan.id :: []) (0 + 1 + 1)).2.1
              (buildSlots rnd F3 F3 meal_types (rOme.id :: rPan.id :: []) (0 + 1 + 1)).2.2 from rfl]
      rw [ctThree_slots_pick rnd (rOme.id :: rPan.id :: []) (0 + 1 + 1) (by decide)]
      dsimp only
      rw [show [rPan, rOme, rPor].filter (fun r => !((rOme.id :: rPan.id :: []).contains r.id)) =
          [rPor] from by decide]
      rw [chooseFrom_singleton]
      rw [ctThree_days_done rnd 2 4 (0 + 1 + 1 + 1) (rPor.id :: rOme.id :: rPan.id :: [])
          (by decide) (by decide) (by decide)]
      decide
    · rw [h2]
      rw [show buildDays rnd F3 F3 3 3 (rPor.id :: rPan.id :: []) (0 + 1 + 1) =
          ("Day 3", (buildSlots rnd F3 F3 meal_types (rPor.id :: rPan.id :: []) (0 + 1 + 1)).1) ::
            buildDays rnd F3 F3 4 2
              (buildSlots rnd F3 F3 meal_types (rPor.id :: rPan.id :: []) (0 + 1 + 1)).2.1
              (buildSlots rnd F3 F3 meal_types (rPor.id :: rPan.id :: []) (0 + 1 + 1)).2.2 from rfl]
      rw [ctThree_slots_pick rnd (rPor.id :: rPan.id :: []) (0 + 1 + 1) (by decide)]
      dsimp only
      rw [show [rPan, rOme, rPor].filter (fun r => !((rPor.id :: rPan.id :: []).contains r.id)) =
          [rOme] from by decide]
      rw [chooseFrom_singleton]
      rw [ctThree_days_done rnd 2 4 (0 + 1 + 1 + 1) (rOme.id :: rPor.id :: rPan.id :: [])
          (by decide) (by decide) (by decide)]
      decide
  · rw [h1]
    rw [show buildDays rnd F3 F3 2 4 (rOme.id :: []) (0 + 1) =
        ("Day 2", (buildSlots rnd F3 F3 meal_types (rOme.id :: []) (0 + 1)).1) ::
          buildDays rnd F3 F3 3 3
            (buildSlots rnd F3 F3 meal_types (rOme.id :: []) (0 + 1)).2.1
            (buildSlots rnd F3 F3 meal_types (rOme.id :: []) (0 + 1)).2.2 from rfl]
    rw [ctThree_slots_pick rnd (rOme.id :: []) (0 + 1) (by decide)]
    dsimp only
    rw [show [rPan, rOme, rPor].filter (fun r => !((rOme.id :: []).contains r.id)) =
        [rPan, rPor] from by decide]
    have hm2 := chooseFrom_mem rnd (0 + 1) (l := [rPan, rPor]) (by decide)
    simp only [List.mem_cons, List.not_mem_nil, or_false] at hm2
    rcases hm2 with h2 | h2
    · rw [h2]
      rw [show buildDays rnd F3 F3 3 3 (rPan.id :: rOme.id :: []) (0 + 1 + 1) =
          ("Day 3", (buildSlots rnd F3 F3 meal_types (rPan.id :: rOme.id :: []) (0 + 1 + 1)).1) ::
            buildDays rnd F3 F3 4 2
              (buildSlots rnd F3 F3 meal_types (rPan.id :: rOme.id :: []) (0 + 1 + 1)).2.1
              (buildSlots rnd F3 F3 meal_types (rPan.id :: rOme.id :: []) (0 + 1 + 1)).2.2 from rfl]
      rw [ctThree_slots_pick rnd (rPan.id :: rOme.id :: []) (0 + 1 + 1) (by decide)]
      dsimp only
      rw [show [rPan, rOme, rPor].filter (fun r => !((rPan.id :: rOme.id :: []).contains r.id)) =
          [rPor] from by decide]
      rw [chooseFrom_singleton]
      rw [ctThree_days_done rnd 2 4 (0 + 1 + 1 + 1) (rPor.id :: rPan.id :: rOme.id :: [])
          (by decide) (by decide) (by decide)]
      decide
    · rw [h2]
      rw [show buildDays rnd F3 F3 3 3 (rPor.id :: rOme.id :: []) (0 + 1 + 1) =
          ("Day 3", (buildSlots rnd F3 F3 meal_types (rPor.id :: rOme.id :: []) (0 + 1 + 1)).1) ::
            buildDays rnd F3 F3 4 2
              (buildSlots rnd F3 F3 meal_types (rPor.id :: rOme.id :: []) (0 + 1 + 1)).2.1
              (buildSlots rnd F3 F3 meal_types (rPor.id :: rOme.id :: []) (0 + 1 + 1)).2.2 from rfl]
      rw [ctThree_slots_pick rnd (rPor.id :: rOme.id :: []) (0 + 1 + 1) (by decide)]
      dsimp only
      rw [show [rPan, rOme, rPor].filter (fun r => !((rPor.id :: rOme.id :: []).contains r.id)) =
          [rPan] from by decide]
      rw [chooseFrom_singleton]
      rw [ctThree_days_done rnd 2 4 (0 + 1 + 1 + 1) (rPan.id :: rPor.id :: rOme.id :: [])
          (by decide) (by decide) (by decide)]
      decide
  · rw [h1]
    rw [show buildDays rnd F3 F3 2 4 (rPor.id :: []) (0 + 1) =
        ("Day 2", (buildSlots rnd F3 F3 meal_types (rPor.id :: []) (0 + 1)).1) ::
          buildDays rnd F3 F3 3 3
            (buildSlots rnd F3 F3 meal_types (rPor.id :: []) (0 + 1)).2.1
            (buildSlots rnd F3 F3 meal_types (rPor.id :: []) (0 + 1)).2.2 from rfl]
    rw [ctThree_slots_pick rnd (rPor.id :: []) (0 + 1) (by decide)]
    dsimp only
    rw [show [rPan, rOme, rPor].filter (fun r => !((rPor.id :: []).contains r.id)) =
        [rPan, rOme] from by decide]
    have hm2 := chooseFrom_mem rnd (0 + 1) (l := [rPan, rOme]) (by decide)
    simp only [List.mem_cons, List.not_mem_nil, or_false] at hm2
    rcases hm2 with h2 | h2
    · rw [h2]
      rw [show buildDays rnd F3 F3 3 3 (rPan.id :: rPor.id :: []) (0 + 1 + 1) =
          ("Day 3", (buildSlots rnd F3 F3 meal_types (rPan.id :: rPor.id :: []) (0 + 1 + 1)).1) ::
            buildDays rnd F3 F3 4 2
              (buildSlots rnd F3 F3 meal_types (rPan.id :: rPor.id :: []) (0 + 1 + 1)).2.1
              (buildSlots rnd F3 F3 meal_types (rPan.id :: rPor.id :: []) (0 + 1 + 1)).2.2 from rfl]
      rw [ctThree_slots_pick rnd (rPan.id :: rPor.id :: []) (0 + 1 + 1) (by decide)]
      dsimp only
      rw [show [rPan, rOme, rPor].filter (fun r => !((rPan.id :: rPor.id :: []).contains r.id)) =
          [rOme] from by decide]
      rw [chooseFrom_singleton]
      rw [ctThree_days_done rnd 2 4 (0 + 1 + 1 + 1) (rOme.id :: rPan.id :: rPor.id :: [])
          (by decide) (by decide) (by decide)]
      decide
    · rw [h2]
      rw [show buildDays rnd F3 F3 3 3 (rOme.id :: rPor.id :: []) (0 + 1 + 1) =
          ("Day 3", (buildSlots rnd F3 F3 meal_types (rOme.id :: rPor.id :: []) (0 + 1 + 1)).1) ::
            buildDays rnd F3 F3 4 2
              (buildSlots rnd F3 F3 meal_types (rOme.id :: rPor.id :: []) (0 + 1 + 1)).2.1
              (buildSlots rnd F3 F3 meal_types (rOme.id :: rPor.id :: []) (0 + 1 + 1)).2.2 from rfl]
      rw [ctThree_slots_pick rnd (rOme.id :: rPor.id :: []) (0 + 1 + 1) (by decide)]
      dsimp only
      rw [show [rPan, rOme, rPor].filter (fun r => !((rOme.id :: rPor.id :: []).contains r.id)) =
          [rPan] from by decide]
      rw [chooseFrom_singleton]
      rw [ctThree_days_done rnd 2 4 (0 + 1 + 1 + 1) (rPan.id :: rOme.id :: rPor.id :: [])
          (by decide) (by decide) (by decide)]
      decide

/-- C2 (amended): when both the primary pool minus used ids and the
fallback pool minus used ids are empty, the slot is left absent and no
draw is consumed, even when the primary pool itself is non-empty: the
assembler never re-picks from the full pool, so repeats never occur.  In
the three-breakfast five-day scenario, for every random stream the
breakfast slots of days 1 to 3 receive the ids 1, 2, 3 exactly once each
and the breakfast slots of days 4 and 5 are absent. -/
theorem C2_exhausted_slot_absent :
    (∀ (rnd : Nat → Nat) (recipes fallback : List Recipe) (used : List Nat) (ctr : Nat),
        recipes.filter (fun r => !(used.contains r.id)) = [] →
        fallback.filter (fun r => !(used.contains r.id)) = [] →
        pickSlot rnd recipes fallback used ctr = (none, ctr)) ∧
    (∀ rnd : Nat → Nat,
        planSlot (generate_meal_plan ctThree 5 [] [] none rnd) "Day 4" "breakfast" = none ∧
        planSlot (generate_meal_plan ctThree 5 [] [] none rnd) "Day 5" "breakfast" = none ∧
        (categoryIds (generate_meal_plan ctThree 5 [] [] none rnd) "breakfast").Perm
          [1, 2, 3]) :=
  ⟨fun rnd recipes fallback used ctr h1 h2 => pickSlot_none ctr h1 h2, ctThree_scenario⟩

/-- Witness for C2 at a concrete input: with the pool recipe already
used, both filtered pools are empty and the slot stays absent; with the
constant-zero stream the five-day breakfast ids are a permutation of
1, 2, 3. -/
theorem C2_exhausted_slot_absent_witness :
    pickSlot (fun _ => 0) [rPan] [] [1] 7 = (none, 7) ∧
    (categoryIds (generate_meal_plan ctThree 5 [] [] none (fun _ => 0)) "breakfast").Perm
      [1, 2, 3] :=
  ⟨C2_exhausted_slot_absent.1 (fun _ => 0) [rPan] [] [1] 7 (by decide) (by decide),
    (C2_exhausted_slot_absent.2 (fun _ => 0)).2.2⟩

/-- C2 counterexample to the claim as stated: the breakfast primary pool
of the three-recipe catalog is non-empty, yet the Day 4 breakfast slot of
a five-day plan is absent instead of being filled by a repeat pick from
the full pool. -/
theorem C2_counterexample :
    get_recipes_by_filters ctThree [] [] none (some "breakfast") true ≠ [] ∧
    planSlot (generate_meal_plan ctThree 5 [] [] none (fun _ => 0)) "Day 4" "breakfast" =
      none := by
  decide

end Meal
